import Mathlib

set_option maxRecDepth 100000

/-!
Verification of the Mission Control task executor
(`src/pocketclaw/mission_control/executor.py`).

The executor is embedded shallowly: each Python method becomes a Lean
function over explicit state, the external collaborators (entity store,
message bus, logger) are represented by a trace of emitted effects, and
the asynchronous chunk stream of the agent backend is a list of items
(chunks or raised faults).  Cooperative cancellation is modelled at chunk
boundaries: `stopAt = some k` means the session's stop flag reads true at
every loop iteration with index `≥ k` (the flag is monotonic).
-/

/-- Security constant `MAX_CONCURRENT_TASKS` from executor.py. -/
def MAX_CONCURRENT_TASKS : Nat := 5

/-- Security constant `MAX_ERROR_MESSAGE_LENGTH` from executor.py. -/
def MAX_ERROR_MESSAGE_LENGTH : Nat := 200

/-- ASCII whitespace as recognised by Python's `str.strip` and the regex
class `\s` (inputs are modelled over ASCII text). -/
def pyIsSpace (c : Char) : Bool :=
  c == ' ' || c == '\t' || c == '\n' || c == '\r' || c == '\x0b' || c == '\x0c'

/-- Python `str.strip()`: drop leading and trailing whitespace. -/
def pyStrip (s : String) : String :=
  ⟨((s.toList.dropWhile pyIsSpace).reverse.dropWhile pyIsSpace).reverse⟩

/-- Python `str.rstrip()`: drop trailing whitespace. -/
def pyRStrip (s : String) : String :=
  ⟨(s.toList.reverse.dropWhile pyIsSpace).reverse⟩

/-- Length of the match of the Python regex `/[^\s]+/[^\s]+` when it starts
at the head of `cs`, if any.  After the leading `/`, the maximal non-space
run `t` follows; backtracking makes the match succeed exactly when `t`
contains a further `/` that has at least one character before it and one
after it, in which case the greedy quantifiers consume `/` together with
the whole of `t`. -/
def pathMatchLen (cs : List Char) : Option Nat :=
  match cs with
  | '/' :: rest =>
    let t := rest.takeWhile (fun c => !(pyIsSpace c))
    if ((t.drop 1).dropLast).contains '/' then some (1 + t.length) else none
  | _ => none

/-- Scan for `re.sub(r"/[^\s]+/[^\s]+", "[path]", s)`: leftmost,
non-overlapping matches are replaced by the placeholder.  The fuel is the
length of the text; every step consumes at least one character. -/
def pathsGo : Nat → List Char → List Char
  | 0, _ => []
  | _ + 1, [] => []
  | fuel + 1, c :: cs =>
    match pathMatchLen (c :: cs) with
    | some n => "[path]".toList ++ pathsGo fuel ((c :: cs).drop n)
    | none => c :: pathsGo fuel cs

/-- The path-redaction substitution of `_sanitize_error`. -/
def redactPaths (s : String) : String :=
  ⟨pathsGo s.toList.length s.toList⟩

/-- Case-insensitive literal prefix match: `pat` is given in lowercase;
returns the matched characters of `cs` (original case) and the rest. -/
def matchPrefixCI : List Char → List Char → Option (List Char × List Char)
  | [], cs => some ([], cs)
  | _ :: _, [] => none
  | p :: ps, c :: cs =>
    if c.toLower == p then
      match matchPrefixCI ps cs with
      | some (m, rest) => some (c :: m, rest)
      | none => none
    else none

/-- The keyword alternation `(key|token|secret|password)` of the secret
redaction regex, tried in the regex's order, case-insensitively. -/
def matchKeyword (cs : List Char) : Option (List Char × List Char) :=
  match matchPrefixCI "key".toList cs with
  | some r => some r
  | none =>
    match matchPrefixCI "token".toList cs with
    | some r => some r
    | none =>
      match matchPrefixCI "secret".toList cs with
      | some r => some r
      | none => matchPrefixCI "password".toList cs

/-- Match of `(key|token|secret|password)[=:]\s*\S+` (IGNORECASE) at the
head of `cs`: returns the keyword as it appears in the input together with
the total match length.  `\s*` then `\S+` succeed exactly when a non-space
run follows the optional whitespace. -/
def secretMatch (cs : List Char) : Option (List Char × Nat) :=
  match matchKeyword cs with
  | none => none
  | some (kw, rest) =>
    match rest with
    | [] => none
    | c :: rest2 =>
      if c == '=' || c == ':' then
        let ws := rest2.takeWhile pyIsSpace
        let val := (rest2.drop ws.length).takeWhile (fun ch => !(pyIsSpace ch))
        if val.isEmpty then none
        else some (kw, kw.length + 1 + ws.length + val.length)
      else none

/-- Scan for the secret-redaction `re.sub`, replacement `\1=[redacted]`:
the keyword is kept as captured and the separator and value are replaced. -/
def secretsGo : Nat → List Char → List Char
  | 0, cs => cs
  | _ + 1, [] => []
  | fuel + 1, c :: cs =>
    match secretMatch (c :: cs) with
    | some (kw, n) => kw ++ "=[redacted]".toList ++ secretsGo fuel ((c :: cs).drop n)
    | none => c :: secretsGo fuel cs

/-- The secret-redaction substitution of `_sanitize_error`. -/
def redactSecrets (s : String) : String :=
  ⟨secretsGo s.toList.length s.toList⟩

/-- `MCTaskExecutor._sanitize_error`: truncate to 200 characters, replace
path-shaped substrings, redact `key=...`-style secrets, and mark a
truncation with a trailing ellipsis. -/
def sanitizeError (error : String) : String :=
  if error = "" then "An error occurred"
  else
    let truncated := error.take MAX_ERROR_MESSAGE_LENGTH
    let s1 := redactPaths truncated
    let s2 := redactSecrets s1
    if MAX_ERROR_MESSAGE_LENGTH < error.length then pyRStrip s2 ++ "..." else s2

/-- Hex digit as accepted by `[0-9a-f]` with `re.IGNORECASE`. -/
def isHexChar (c : Char) : Bool :=
  c.isDigit || ('a' ≤ c && c ≤ 'f') || ('A' ≤ c && c ≤ 'F')

/-- Consume exactly `n` hex characters, returning the rest. -/
def takeHex : Nat → List Char → Option (List Char)
  | 0, cs => some cs
  | _ + 1, [] => none
  | n + 1, c :: cs => if isHexChar c then takeHex n cs else none

/-- Consume a literal dash. -/
def dashThen (cs : List Char) : Option (List Char) :=
  match cs with
  | '-' :: rest => some rest
  | _ => none

/-- Match of `UUID_PATTERN` (`^[0-9a-f]{8}-[0-9a-f]{4}-[0-9a-f]{4}-`
`[0-9a-f]{4}-[0-9a-f]{12}$`, IGNORECASE) against the whole input.  Python's
`$` (without `re.MULTILINE`) also matches just before a newline that ends
the string, so one trailing `'\n'` after the UUID is accepted. -/
def uuidMatch (cs : List Char) : Bool :=
  match takeHex 8 cs >>= dashThen >>= takeHex 4 >>= dashThen >>= takeHex 4
      >>= dashThen >>= takeHex 4 >>= dashThen >>= takeHex 12 with
  | some rest => rest.isEmpty || rest == ['\n']
  | none => false

/-- `MCTaskExecutor._is_valid_uuid` (the `isinstance` guard is vacuous in
the typed embedding). -/
def isValidUUID (value : String) : Bool :=
  if value.isEmpty then false else uuidMatch value.toList

/-- Canonical UUID textual form as the spec's words describe it: exactly
the hyphenated `8-4-4-4-12` hex groups and nothing else.  This is the
spec-side counterpart used to compare against `isValidUUID`. -/
def canonicalUUID (value : String) : Bool :=
  match takeHex 8 value.toList >>= dashThen >>= takeHex 4 >>= dashThen
      >>= takeHex 4 >>= dashThen >>= takeHex 4 >>= dashThen >>= takeHex 12 with
  | some rest => rest.isEmpty
  | none => false

/-- Modelled from the spec: task statuses (§3) declared in
`mission_control/models.py`, which is not under `src/`. -/
inductive TaskStatus
  | TODO
  | IN_PROGRESS
  | DONE
  | BLOCKED
deriving DecidableEq

/-- Modelled from the spec: agent statuses (§3) declared in
`mission_control/models.py`, which is not under `src/`. -/
inductive AgentStatus
  | IDLE
  | ACTIVE
deriving DecidableEq

/-- Modelled from the spec: the activity kinds the executor uses, declared
in `mission_control/models.py`, which is not under `src/`. -/
inductive ActivityType
  | TASK_UPDATED
  | TASK_COMPLETED
  | DOCUMENT_CREATED
deriving DecidableEq

/-- Modelled from the spec: the append-only activity record (§3,
`mission_control/models.py` is not under `src/`); the timestamp is real
time and is left out of the embedding. -/
structure Activity where
  type : ActivityType
  agent_id : Option String
  task_id : Option String
  message : String
deriving DecidableEq

/-- Modelled from the spec: document types, from `mission_control/models.py`
(not under `src/`); only `DELIVERABLE` is used by the executor. -/
inductive DocumentType
  | DELIVERABLE
deriving DecidableEq

/-- Modelled from the spec: the deliverable document record (§3,
`mission_control/models.py` is not under `src/`); the generated `id` field
is left out of the embedding. -/
structure Document where
  title : String
  content : String
  type : DocumentType
  author_id : String
  task_id : String
  tags : List String
deriving DecidableEq

/-- Modelled from the spec: the Task entity (§3); only the fields the
executor reads are kept. -/
structure MCTask where
  title : String
  description : Option String := none
deriving DecidableEq

/-- Modelled from the spec: the Agent entity (§3); only the fields the
executor reads outside prompt construction are kept. -/
structure MCAgent where
  name : String
  backend : String := ""
deriving DecidableEq

/-- The external entity store, as the executor sees it: lookup tables for
tasks and agents plus a fault switch for `save_document` (the store is an
external collaborator whose calls may raise). -/
structure Store where
  tasks : List (String × MCTask)
  agents : List (String × MCAgent)
  saveDocumentFails : Bool := false
deriving DecidableEq

/-- Internal logger calls of the executor, by call site (the formatted
message text is abstracted to the data it carries). -/
inductive LogEntry
  | invalidTaskId (task_id : String)
  | invalidAgentId (agent_id : String)
  | maxConcurrentReached (task_id : String)
  | executionStarting (task_id agent_id : String)
  | executionException (task_id : String) (raw : String)
  | savedDeliverable (task_id : String) (len : Nat)
  | stopRouterError (task_id : String)
  | stoppedTask (task_id : String)
deriving DecidableEq

/-- Events published on the message bus (WebSocket fan-out); the `now_iso`
timestamps are real time and are left out of the embedding. -/
inductive SysEvent
  | task_started (task_id agent_id agent_name task_title : String)
  | task_output (task_id content output_type : String)
  | task_completed (task_id agent_id status : String) (error : Option String)
  | activity_created (a : Activity)
deriving DecidableEq

/-- One observable effect of the executor: a call into the entity store, a
bus publication, the best-effort router stop, or an internal log line. -/
inductive Effect
  | getTask (id : String)
  | getAgent (id : String)
  | updateTaskStatus (task_id : String) (status : TaskStatus) (agent_id : String)
  | setAgentStatus (agent_id : String) (status : AgentStatus) (active_task : Option String)
  | saveActivity (a : Activity)
  | saveDocument (d : Document)
  | publish (e : SysEvent)
  | routerStop (task_id : String)
  | log (entry : LogEntry)
deriving DecidableEq

/-- The executor's in-memory mutable state: the keys of `_running_tasks`,
`_agent_routers` and `_stop_flags`. -/
structure ExecState where
  running : List String
  routers : List String
  stopFlags : List (String × Bool)
deriving DecidableEq

/-- One chunk yielded by the agent backend: `type` and `content` come from
`chunk.get(...)` with `""` defaults, `name` is `metadata.get("name")`. -/
structure Chunk where
  type : String := ""
  content : String := ""
  name : Option String := none
deriving DecidableEq

/-- One step of the backend stream: either a yielded chunk or an exception
raised while pulling the next chunk (a genuine backend/transport fault). -/
inductive StreamItem
  | chunk (c : Chunk)
  | fault (msg : String)
deriving DecidableEq

/-- The dict returned by `execute_task`; the early admission returns carry
no `output` key, hence the `Option`. -/
structure ExecResult where
  status : String
  output : Option String
  error : Option String
deriving DecidableEq

deriving instance DecidableEq for Except

/-- Full observable outcome of one `execute_task` call: the returned value
(or the exception that escaped), the emitted effects in order, and the
executor state afterwards. -/
structure ExecOutcome where
  result : Except String ExecResult
  trace : List Effect
  state : ExecState
deriving DecidableEq

/-- `MCTaskExecutor._log_activity`: persist the activity, then broadcast an
`mc_activity_created` event. -/
def logActivity (ty : ActivityType) (agent_id task_id : Option String)
    (message : String) : List Effect :=
  let a : Activity := ⟨ty, agent_id, task_id, message⟩
  [Effect.saveActivity a, Effect.publish (SysEvent.activity_created a)]

/-- `MCTaskExecutor._save_task_deliverable`: skip empty or whitespace-only
output, otherwise persist the deliverable document, log, and record a
`DOCUMENT_CREATED` activity.  The second component is true when the
external `save_document` call raises, in which case nothing after the
failed call runs. -/
def saveTaskDeliverable (store : Store) (task_id agent_id output task_title : String) :
    List Effect × Bool :=
  if output = "" ∨ pyStrip output = "" then ([], false)
  else
    let d : Document :=
      ⟨"Deliverable: " ++ task_title, output, DocumentType.DELIVERABLE,
        agent_id, task_id, ["auto-generated", "task-output"]⟩
    if store.saveDocumentFails then ([], true)
    else
      ([Effect.saveDocument d, Effect.log (LogEntry.savedDeliverable task_id output.length)]
        ++ logActivity ActivityType.DOCUMENT_CREATED (some agent_id) (some task_id)
            ("Deliverable saved for '" ++ task_title ++ "'"), false)

/-- Whether the session's stop flag reads true at loop iteration `i`
(`self._stop_flags.get(task_id)` at the top of the chunk loop).  The flag
is monotonic: once set before iteration `k` it stays set. -/
def stopRequested (stopAt : Option Nat) (i : Nat) : Bool :=
  match stopAt with
  | some k => decide (k ≤ i)
  | none => false

/-- Result of the chunk-consumption loop of `execute_task`. -/
structure LoopOut where
  output_chunks : List String
  effects : List Effect
  final_status : String
  error_message : Option String
deriving DecidableEq

/-- The `async for chunk in router.run(prompt)` loop of `execute_task`
(lines 197-256).  A fault while pulling is caught by `except Exception`:
it is logged raw internally and becomes the sanitized error.  A yielded
chunk is preceded by the stop-flag check, then classified by its `type`;
unmatched types are skipped. -/
def runLoop (task_id : String) (stopAt : Option Nat) :
    List StreamItem → Nat → LoopOut
  | [], _ => ⟨[], [], "completed", none⟩
  | item :: rest, i =>
    match item with
    | StreamItem.fault msg =>
      ⟨[], [Effect.log (LogEntry.executionException task_id msg)], "error",
        some (sanitizeError msg)⟩
    | StreamItem.chunk c =>
      if stopRequested stopAt i then ⟨[], [], "stopped", none⟩
      else if c.type = "message" ∧ c.content ≠ "" then
        let r := runLoop task_id stopAt rest (i + 1)
        ⟨c.content :: r.output_chunks,
          Effect.publish (SysEvent.task_output task_id c.content "message") :: r.effects,
          r.final_status, r.error_message⟩
      else if c.type = "tool_use" then
        let tool := c.name.getD "unknown"
        let r := runLoop task_id stopAt rest (i + 1)
        ⟨r.output_chunks,
          Effect.publish (SysEvent.task_output task_id ("Using tool: " ++ tool) "tool_use")
            :: r.effects,
          r.final_status, r.error_message⟩
      else if c.type = "tool_result" then
        let result := if c.content = "" then "" else c.content.take 200
        let r := runLoop task_id stopAt rest (i + 1)
        ⟨r.output_chunks,
          Effect.publish (SysEvent.task_output task_id ("Tool result: " ++ result) "tool_result")
            :: r.effects,
          r.final_status, r.error_message⟩
      else if c.type = "error" then ⟨[], [], "error", some c.content⟩
      else if c.type = "done" then ⟨[], [], "completed", none⟩
      else runLoop task_id stopAt rest (i + 1)

/-- The `finally` block of `execute_task` (lines 258-313): drop the task
from the three registries, persist the mapped task status and the idle
agent status, broadcast `mc_task_completed`, and log one outcome activity
(plus, on completion with output, the deliverable).  The boolean is true
when the deliverable save raised, which aborts the rest of the suite. -/
def finalizeSession (store : Store) (s : ExecState) (task_id agent_id : String)
    (agent_name task_title : String) (final_status : String)
    (error_message : Option String) (output_chunks : List String) :
    List Effect × ExecState × Bool :=
  let s' : ExecState :=
    ⟨s.running.erase task_id, s.routers.erase task_id,
      s.stopFlags.filter (fun p => !(p.1 == task_id))⟩
  let new_task_status :=
    if final_status = "completed" then TaskStatus.DONE else TaskStatus.BLOCKED
  let base : List Effect :=
    [Effect.updateTaskStatus task_id new_task_status agent_id,
      Effect.setAgentStatus agent_id AgentStatus.IDLE none,
      Effect.publish (SysEvent.task_completed task_id agent_id final_status error_message)]
  if final_status = "completed" then
    let acts := logActivity ActivityType.TASK_COMPLETED (some agent_id) (some task_id)
      (agent_name ++ " completed '" ++ task_title ++ "'")
    if output_chunks.isEmpty then (base ++ acts, s', false)
    else
      let full_output := String.join output_chunks
      let saved := saveTaskDeliverable store task_id agent_id full_output task_title
      (base ++ acts ++ saved.1, s', saved.2)
  else if final_status = "error" then
    let errText := match error_message with | some e => e | none => "None"
    let acts := logActivity ActivityType.TASK_UPDATED (some agent_id) (some task_id)
      (agent_name ++ " encountered an error on '" ++ task_title ++ "': " ++ errText)
    (base ++ acts, s', false)
  else if final_status = "stopped" then
    let acts := logActivity ActivityType.TASK_UPDATED (some agent_id) (some task_id)
      ("Execution stopped for '" ++ task_title ++ "'")
    (base ++ acts, s', false)
  else (base, s', false)

/-- The post-admission body of `execute_task` (lines 138-320): register the
stop flag and the per-task router, move task and agent to their running
statuses, broadcast `mc_task_started`, log the start activity, consume the
chunk stream, and run the `finally` finalization.  `stopAt` is the chunk
boundary from which the stop flag reads true (none: never). -/
def runSession (store : Store) (s : ExecState) (task_id agent_id : String)
    (task : MCTask) (agent : MCAgent) (items : List StreamItem)
    (stopAt : Option Nat) : ExecOutcome :=
  let s1 : ExecState :=
    ⟨s.running,
      if s.routers.contains task_id then s.routers else task_id :: s.routers,
      (task_id, false) :: s.stopFlags.filter (fun p => !(p.1 == task_id))⟩
  let pre : List Effect :=
    Effect.log (LogEntry.executionStarting task_id agent_id) ::
    Effect.updateTaskStatus task_id TaskStatus.IN_PROGRESS agent_id ::
    Effect.setAgentStatus agent_id AgentStatus.ACTIVE (some task_id) ::
    Effect.publish (SysEvent.task_started task_id agent_id agent.name task.title) ::
    logActivity ActivityType.TASK_UPDATED (some agent_id) (some task_id)
      (agent.name ++ " started working on '" ++ task.title ++ "'")
  let lp := runLoop task_id stopAt items 0
  let fin := finalizeSession store s1 task_id agent_id agent.name task.title
    lp.final_status lp.error_message lp.output_chunks
  let full_output := String.join lp.output_chunks
  let result : Except String ExecResult :=
    if fin.2.2 then Except.error "save_document raised"
    else Except.ok ⟨lp.final_status, some full_output, lp.error_message⟩
  ⟨result, pre ++ lp.effects ++ fin.1, fin.2.1⟩

/-- `MCTaskExecutor.execute_task`: UUID validation, capacity check, entity
lookups, duplicate check, then the session body.  Every admission failure
returns a plain error dict (without an `output` key) before any state
mutation. -/
def executeTask (store : Store) (s : ExecState) (task_id agent_id : String)
    (items : List StreamItem) (stopAt : Option Nat) : ExecOutcome :=
  if isValidUUID task_id = false then
    ⟨Except.ok ⟨"error", none, some "Invalid task ID format"⟩,
      [Effect.log (LogEntry.invalidTaskId task_id)], s⟩
  else if isValidUUID agent_id = false then
    ⟨Except.ok ⟨"error", none, some "Invalid agent ID format"⟩,
      [Effect.log (LogEntry.invalidAgentId agent_id)], s⟩
  else if MAX_CONCURRENT_TASKS ≤ s.running.length then
    ⟨Except.ok ⟨"error", none,
        some ("Maximum concurrent tasks (" ++ toString MAX_CONCURRENT_TASKS
          ++ ") reached. Please wait.")⟩,
      [Effect.log (LogEntry.maxConcurrentReached task_id)], s⟩
  else
    match store.tasks.lookup task_id with
    | none =>
      ⟨Except.ok ⟨"error", none, some "Task not found"⟩, [Effect.getTask task_id], s⟩
    | some task =>
      match store.agents.lookup agent_id with
      | none =>
        ⟨Except.ok ⟨"error", none, some "Agent not found"⟩,
          [Effect.getTask task_id, Effect.getAgent agent_id], s⟩
      | some agent =>
        if s.running.contains task_id then
          ⟨Except.ok ⟨"error", none, some "Task is already running"⟩,
            [Effect.getTask task_id, Effect.getAgent agent_id], s⟩
        else
          let r := runSession store s task_id agent_id task agent items stopAt
          ⟨r.result, Effect.getTask task_id :: Effect.getAgent agent_id :: r.trace, r.state⟩

/-- `MCTaskExecutor.execute_task_background`: `asyncio.create_task` only
schedules the coroutine, and the registry entry is written before the
event loop ever runs its first step, so the registration strictly precedes
the coroutine's own admission checks; the sequential composition below is
that interleaving. -/
def executeTaskBackground (store : Store) (s : ExecState) (task_id agent_id : String)
    (items : List StreamItem) (stopAt : Option Nat) : ExecOutcome :=
  let s1 : ExecState :=
    ⟨if s.running.contains task_id then s.running else task_id :: s.running,
      s.routers, s.stopFlags⟩
  executeTask store s1 task_id agent_id items stopAt

/-- `MCTaskExecutor.stop_task`: no-op returning false when the task id is
not registered; otherwise set the stop flag, stop the router best-effort
when one is registered, cancel and await the asyncio task (the awaited
coroutine's completion, including its `finally` block, is represented by
`runSession` in composed scenarios), log, and return true.  Note the
registry entry itself is not removed here. -/
def stopTask (s : ExecState) (task_id : String) : Bool × List Effect × ExecState :=
  if s.running.contains task_id then
    let s1 : ExecState :=
      ⟨s.running, s.routers,
        (task_id, true) :: s.stopFlags.filter (fun p => !(p.1 == task_id))⟩
    let routerEffs :=
      if s1.routers.contains task_id then [Effect.routerStop task_id] else []
    (true, routerEffs ++ [Effect.log (LogEntry.stoppedTask task_id)], s1)
  else (false, [], s)

/-- `MCTaskExecutor.is_task_running`. -/
def isTaskRunning (s : ExecState) (task_id : String) : Bool :=
  s.running.contains task_id

/-- `MCTaskExecutor.get_running_tasks`. -/
def getRunningTasks (s : ExecState) : List String :=
  s.running

/-- The `mc_task_completed` events of a trace, with their payloads. -/
def taskCompletedEvents (tr : List Effect) : List (String × String × String × Option String) :=
  tr.filterMap fun e =>
    match e with
    | Effect.publish (SysEvent.task_completed t a st er) => some (t, a, st, er)
    | _ => none

/-- The `mc_task_output` events of a trace, with their payloads. -/
def outputEvents (tr : List Effect) : List (String × String × String) :=
  tr.filterMap fun e =>
    match e with
    | Effect.publish (SysEvent.task_output t c o) => some (t, c, o)
    | _ => none

/-- The deliverable documents persisted in a trace. -/
def docSaves (tr : List Effect) : List Document :=
  tr.filterMap fun e =>
    match e with
    | Effect.saveDocument d => some d
    | _ => none

/-- The task status transitions persisted in a trace. -/
def taskStatusUpdates (tr : List Effect) : List (String × TaskStatus × String) :=
  tr.filterMap fun e =>
    match e with
    | Effect.updateTaskStatus t st a => some (t, st, a)
    | _ => none

/-- The agent status transitions persisted in a trace. -/
def agentStatusUpdates (tr : List Effect) : List (String × AgentStatus × Option String) :=
  tr.filterMap fun e =>
    match e with
    | Effect.setAgentStatus a st t => some (a, st, t)
    | _ => none

/-- The activities persisted in a trace. -/
def savedActivities (tr : List Effect) : List Activity :=
  tr.filterMap fun e =>
    match e with
    | Effect.saveActivity a => some a
    | _ => none

/-- The internal log lines of a trace. -/
def logEntries (tr : List Effect) : List LogEntry :=
  tr.filterMap fun e =>
    match e with
    | Effect.log l => some l
    | _ => none

/-- Effects an admission failure may emit: pure store reads and log lines. -/
def isReadOrLog (e : Effect) : Bool :=
  match e with
  | Effect.getTask _ => true
  | Effect.getAgent _ => true
  | Effect.log _ => true
  | _ => false

/-- Concrete task id used by witnesses and counterexamples. -/
def tidA : String := "11111111-1111-1111-1111-111111111111"

/-- Concrete agent id used by witnesses and counterexamples. -/
def aidA : String := "22222222-2222-2222-2222-222222222222"

/-- Concrete task fixture. -/
def taskA : MCTask := { title := "T" }

/-- Concrete agent fixture. -/
def agentA : MCAgent := { name := "A" }

/-- Concrete store fixture holding `taskA` and `agentA`. -/
def storeA : Store := { tasks := [(tidA, taskA)], agents := [(aidA, agentA)] }

/-- The empty executor state (a fresh `MCTaskExecutor`). -/
def st0 : ExecState := ⟨[], [], []⟩

/-- The raw fault text of the C1 scenario. -/
def rawBoom : String := "boom at /home/user/secret key=sk-123"

/-- Admission is blocked: the capacity bound is hit, an entity is missing,
or the task already has a registry entry. -/
def AdmissionBlocked (store : Store) (s : ExecState) (tid aid : String) : Prop :=
  MAX_CONCURRENT_TASKS ≤ s.running.length
  ∨ store.tasks.lookup tid = none
  ∨ store.agents.lookup aid = none
  ∨ s.running.contains tid = true

/-- Store fixture whose external `save_document` call raises. -/
def storeFail : Store :=
  { tasks := [(tidA, taskA)], agents := [(aidA, agentA)], saveDocumentFails := true }

/-- A canonically shaped UUID followed by one trailing newline. -/
def newlineId : String := "12345678-1234-1234-1234-123456789abc\n"

/-- Admission succeeds: both ids are well-formed, the capacity bound
holds, both entities resolve, and the task is not registered as running. -/
structure AdmitOK (store : Store) (s : ExecState) (tid aid : String)
    (task : MCTask) (agent : MCAgent) : Prop where
  valid_tid : isValidUUID tid = true
  valid_aid : isValidUUID aid = true
  cap : s.running.length < MAX_CONCURRENT_TASKS
  task_found : store.tasks.lookup tid = some task
  agent_found : store.agents.lookup aid = some agent
  not_dup : s.running.contains tid = false

/-- Under successful admission, `execute_task` is the session body plus the
two entity reads. -/
theorem executeTask_admitted {store : Store} {s : ExecState} {tid aid : String}
    {task : MCTask} {agent : MCAgent}
    (h : AdmitOK store s tid aid task agent) (items : List StreamItem)
    (stopAt : Option Nat) :
    executeTask store s tid aid items stopAt =
      ⟨(runSession store s tid aid task agent items stopAt).result,
        Effect.getTask tid :: Effect.getAgent aid ::
          (runSession store s tid aid task agent items stopAt).trace,
        (runSession store s tid aid task agent items stopAt).state⟩ := by
  unfold executeTask
  rw [h.valid_tid, h.valid_aid, h.task_found, h.agent_found, h.not_dup]
  simp [Nat.not_le.mpr h.cap]

/-- Every run of the chunk loop ends in one of the three final statuses. -/
theorem runLoop_status (task_id : String) (stopAt : Option Nat) :
    ∀ (items : List StreamItem) (i : Nat),
      (runLoop task_id stopAt items i).final_status = "completed"
      ∨ (runLoop task_id stopAt items i).final_status = "error"
      ∨ (runLoop task_id stopAt items i).final_status = "stopped" := by
  intro items
  induction items with
  | nil => intro i; left; rfl
  | cons item rest ih =>
    intro i
    cases item with
    | fault m => right; left; rfl
    | chunk c =>
      simp only [runLoop]
      split
      · right; right; rfl
      · split
        · exact ih (i + 1)
        · split
          · exact ih (i + 1)
          · split
            · exact ih (i + 1)
            · split
              · right; left; rfl
              · split
                · left; rfl
                · exact ih (i + 1)

/-- The loop emits only `mc_task_output` publications and the internal
exception log: no persistence calls and no completion event. -/
theorem runLoop_effects_streamed (task_id : String) (stopAt : Option Nat) :
    ∀ (items : List StreamItem) (i : Nat),
      taskCompletedEvents (runLoop task_id stopAt items i).effects = []
      ∧ docSaves (runLoop task_id stopAt items i).effects = []
      ∧ taskStatusUpdates (runLoop task_id stopAt items i).effects = []
      ∧ agentStatusUpdates (runLoop task_id stopAt items i).effects = []
      ∧ savedActivities (runLoop task_id stopAt items i).effects = [] := by
  intro items
  induction items with
  | nil =>
    intro i
    exact ⟨rfl, rfl, rfl, rfl, rfl⟩
  | cons item rest ih =>
    intro i
    cases item with
    | fault m =>
      exact ⟨rfl, rfl, rfl, rfl, rfl⟩
    | chunk c =>
      simp only [runLoop]
      split
      · exact ⟨rfl, rfl, rfl, rfl, rfl⟩
      · split
        · simpa [taskCompletedEvents, docSaves, taskStatusUpdates,
            agentStatusUpdates, savedActivities] using ih (i + 1)
        · split
          · simpa [taskCompletedEvents, docSaves, taskStatusUpdates,
              agentStatusUpdates, savedActivities] using ih (i + 1)
          · split
            · simpa [taskCompletedEvents, docSaves, taskStatusUpdates,
                agentStatusUpdates, savedActivities] using ih (i + 1)
            · split
              · exact ⟨rfl, rfl, rfl, rfl, rfl⟩
              · split
                · exact ⟨rfl, rfl, rfl, rfl, rfl⟩
                · exact ih (i + 1)

/-- A loop run that ends `completed` never hit the exception handler, so
it produced no internal log lines. -/
theorem runLoop_completed_no_logs (task_id : String) (stopAt : Option Nat) :
    ∀ (items : List StreamItem) (i : Nat),
      (runLoop task_id stopAt items i).final_status = "completed" →
      logEntries (runLoop task_id stopAt items i).effects = [] := by
  intro items
  induction items with
  | nil => intro i _; rfl
  | cons item rest ih =>
    intro i
    cases item with
    | fault m =>
      intro hc
      exact absurd hc (by simp [runLoop])
    | chunk c =>
      simp only [runLoop]
      split
      · intro hc; exact absurd hc (by simp)
      · split
        · intro hc
          simpa [logEntries] using ih (i + 1) hc
        · split
          · intro hc
            simpa [logEntries] using ih (i + 1) hc
          · split
            · intro hc
              simpa [logEntries] using ih (i + 1) hc
            · split
              · intro hc; exact absurd hc (by simp)
              · split
                · intro _; rfl
                · exact ih (i + 1)

/-- Stripping distributes over the emptiness test: the guard
`not output or not output.strip()` collapses to the stripped test. -/
theorem strip_cond (full : String) :
    (full = "" ∨ pyStrip full = "") ↔ pyStrip full = "" := by
  constructor
  · rintro (rfl | h)
    · rfl
    · exact h
  · exact fun h => Or.inr h

/-- Joining no chunks yields the empty output. -/
theorem join_nil : String.join [] = "" := rfl

/-- Stripping the empty output yields the empty output. -/
theorem pyStrip_nil : pyStrip "" = "" := rfl

/-- A stop-flag table from which `task_id` was filtered out resolves it to
nothing. -/
theorem lookup_filter_self (tid : String) (l : List (String × Bool)) :
    List.lookup tid (l.filter (fun p => !(p.1 == tid))) = none := by
  induction l with
  | nil => rfl
  | cons p rest ih =>
    obtain ⟨k, v⟩ := p
    by_cases hk : k = tid
    · subst hk
      simpa [List.filter_cons] using ih
    · have hbeq : (k == tid) = false := beq_eq_false_iff_ne.mpr hk
      have hbeq2 : (tid == k) = false := beq_eq_false_iff_ne.mpr (Ne.symm hk)
      simp [List.filter_cons, List.lookup, hbeq, hbeq2, ih]

/-- Characterisation of the `finally` block when the external document
save does not fail: its status persistence, completion event, activity
count, deliverable condition, and resulting registries. -/
theorem finalizeSession_spec (store : Store) (s : ExecState) (tid aid an tt : String)
    (st : String) (er : Option String) (out : List String)
    (hsave : store.saveDocumentFails = false)
    (hst : st = "completed" ∨ st = "error" ∨ st = "stopped") :
    (finalizeSession store s tid aid an tt st er out).2.2 = false
    ∧ taskCompletedEvents (finalizeSession store s tid aid an tt st er out).1
        = [(tid, aid, st, er)]
    ∧ (docSaves (finalizeSession store s tid aid an tt st er out).1).length
        = (if st = "completed" ∧ pyStrip (String.join out) ≠ "" then 1 else 0)
    ∧ (st = "completed" ∧ pyStrip (String.join out) ≠ "" →
        docSaves (finalizeSession store s tid aid an tt st er out).1
          = [⟨"Deliverable: " ++ tt, String.join out, DocumentType.DELIVERABLE,
              aid, tid, ["auto-generated", "task-output"]⟩])
    ∧ taskStatusUpdates (finalizeSession store s tid aid an tt st er out).1
        = [(tid, if st = "completed" then TaskStatus.DONE else TaskStatus.BLOCKED, aid)]
    ∧ agentStatusUpdates (finalizeSession store s tid aid an tt st er out).1
        = [(aid, AgentStatus.IDLE, none)]
    ∧ (savedActivities (finalizeSession store s tid aid an tt st er out).1).length
        = 1 + (docSaves (finalizeSession store s tid aid an tt st er out).1).length
    ∧ (finalizeSession store s tid aid an tt st er out).2.1
        = ⟨s.running.erase tid, s.routers.erase tid,
            s.stopFlags.filter (fun p => !(p.1 == tid))⟩ := by
  rcases hst with rfl | rfl | rfl
  · cases out with
    | nil =>
      simp [finalizeSession, saveTaskDeliverable, logActivity, taskCompletedEvents,
        docSaves, taskStatusUpdates, agentStatusUpdates, savedActivities,
        join_nil, pyStrip_nil]
    | cons a as =>
      by_cases hstr : pyStrip (String.join (a :: as)) = ""
      · simp [finalizeSession, saveTaskDeliverable, logActivity, taskCompletedEvents,
          docSaves, taskStatusUpdates, agentStatusUpdates, savedActivities,
          hstr, hsave]
      · have hfull : String.join (a :: as) ≠ "" := by
          intro h
          exact hstr (by rw [h]; rfl)
        simp [finalizeSession, saveTaskDeliverable, logActivity, taskCompletedEvents,
          docSaves, taskStatusUpdates, agentStatusUpdates, savedActivities,
          hstr, hsave, hfull]
  · simp [finalizeSession, logActivity, taskCompletedEvents, docSaves,
      taskStatusUpdates, agentStatusUpdates, savedActivities]
  · simp [finalizeSession, logActivity, taskCompletedEvents, docSaves,
      taskStatusUpdates, agentStatusUpdates, savedActivities]

/-- `taskCompletedEvents` distributes over trace concatenation. -/
theorem taskCompletedEvents_append (l1 l2 : List Effect) :
    taskCompletedEvents (l1 ++ l2) = taskCompletedEvents l1 ++ taskCompletedEvents l2 :=
  List.filterMap_append l1 l2 _

/-- `outputEvents` distributes over trace concatenation. -/
theorem outputEvents_append (l1 l2 : List Effect) :
    outputEvents (l1 ++ l2) = outputEvents l1 ++ outputEvents l2 :=
  List.filterMap_append l1 l2 _

/-- `docSaves` distributes over trace concatenation. -/
theorem docSaves_append (l1 l2 : List Effect) :
    docSaves (l1 ++ l2) = docSaves l1 ++ docSaves l2 :=
  List.filterMap_append l1 l2 _

/-- `taskStatusUpdates` distributes over trace concatenation. -/
theorem taskStatusUpdates_append (l1 l2 : List Effect) :
    taskStatusUpdates (l1 ++ l2) = taskStatusUpdates l1 ++ taskStatusUpdates l2 :=
  List.filterMap_append l1 l2 _

/-- `agentStatusUpdates` distributes over trace concatenation. -/
theorem agentStatusUpdates_append (l1 l2 : List Effect) :
    agentStatusUpdates (l1 ++ l2) = agentStatusUpdates l1 ++ agentStatusUpdates l2 :=
  List.filterMap_append l1 l2 _

/-- `savedActivities` distributes over trace concatenation. -/
theorem savedActivities_append (l1 l2 : List Effect) :
    savedActivities (l1 ++ l2) = savedActivities l1 ++ savedActivities l2 :=
  List.filterMap_append l1 l2 _

/-- `logEntries` distributes over trace concatenation. -/
theorem logEntries_append (l1 l2 : List Effect) :
    logEntries (l1 ++ l2) = logEntries l1 ++ logEntries l2 :=
  List.filterMap_append l1 l2 _

/-- Characterisation of one admitted session run (no document-save fault):
the returned dict, the single completion event, the deliverable condition,
both persisted status transitions, the activity count, and the resulting
registries. -/
theorem runSession_spec (store : Store) (s : ExecState) (tid aid : String)
    (task : MCTask) (agent : MCAgent) (items : List StreamItem) (stopAt : Option Nat)
    (hsave : store.saveDocumentFails = false) :
    (runSession store s tid aid task agent items stopAt).result =
      Except.ok ⟨(runLoop tid stopAt items 0).final_status,
        some (String.join (runLoop tid stopAt items 0).output_chunks),
        (runLoop tid stopAt items 0).error_message⟩
    ∧ taskCompletedEvents (runSession store s tid aid task agent items stopAt).trace
        = [(tid, aid, (runLoop tid stopAt items 0).final_status,
            (runLoop tid stopAt items 0).error_message)]
    ∧ (docSaves (runSession store s tid aid task agent items stopAt).trace).length
        = (if (runLoop tid stopAt items 0).final_status = "completed"
              ∧ pyStrip (String.join (runLoop tid stopAt items 0).output_chunks) ≠ ""
            then 1 else 0)
    ∧ ((runLoop tid stopAt items 0).final_status = "completed"
          ∧ pyStrip (String.join (runLoop tid stopAt items 0).output_chunks) ≠ "" →
        docSaves (runSession store s tid aid task agent items stopAt).trace
          = [⟨"Deliverable: " ++ task.title,
              String.join (runLoop tid stopAt items 0).output_chunks,
              DocumentType.DELIVERABLE, aid, tid, ["auto-generated", "task-output"]⟩])
    ∧ taskStatusUpdates (runSession store s tid aid task agent items stopAt).trace
        = [(tid, TaskStatus.IN_PROGRESS, aid),
            (tid, if (runLoop tid stopAt items 0).final_status = "completed"
              then TaskStatus.DONE else TaskStatus.BLOCKED, aid)]
    ∧ agentStatusUpdates (runSession store s tid aid task agent items stopAt).trace
        = [(aid, AgentStatus.ACTIVE, some tid), (aid, AgentStatus.IDLE, none)]
    ∧ (savedActivities (runSession store s tid aid task agent items stopAt).trace).length
        = 2 + (docSaves (runSession store s tid aid task agent items stopAt).trace).length
    ∧ (runSession store s tid aid task agent items stopAt).state.running
        = s.running.erase tid
    ∧ List.lookup tid (runSession store s tid aid task agent items stopAt).state.stopFlags
        = none := by
  have hst := runLoop_status tid stopAt items 0
  obtain ⟨hl1, hl2, hl3, hl4, hl5⟩ := runLoop_effects_streamed tid stopAt items 0
  obtain ⟨hf0, hf1, hf2, hf3, hf4, hf5, hf6, hf7⟩ :=
    finalizeSession_spec store
      ⟨s.running, if s.routers.contains tid then s.routers else tid :: s.routers,
        (tid, false) :: s.stopFlags.filter (fun p => !(p.1 == tid))⟩
      tid aid agent.name task.title
      (runLoop tid stopAt items 0).final_status
      (runLoop tid stopAt items 0).error_message
      (runLoop tid stopAt items 0).output_chunks hsave hst
  refine ⟨?_, ?_, ?_, ?_, ?_, ?_, ?_, ?_, ?_⟩
  · simp only [runSession]
    rw [hf0]
    simp
  · simp only [runSession]
    rw [show (Effect.log (LogEntry.executionStarting tid aid) ::
        Effect.updateTaskStatus tid TaskStatus.IN_PROGRESS aid ::
        Effect.setAgentStatus aid AgentStatus.ACTIVE (some tid) ::
        Effect.publish (SysEvent.task_started tid aid agent.name task.title) ::
        logActivity ActivityType.TASK_UPDATED (some aid) (some tid)
          (agent.name ++ " started working on '" ++ task.title ++ "'")) =
      ([Effect.log (LogEntry.executionStarting tid aid),
        Effect.updateTaskStatus tid TaskStatus.IN_PROGRESS aid,
        Effect.setAgentStatus aid AgentStatus.ACTIVE (some tid),
        Effect.publish (SysEvent.task_started tid aid agent.name task.title)] ++
        logActivity ActivityType.TASK_UPDATED (some aid) (some tid)
          (agent.name ++ " started working on '" ++ task.title ++ "'")) from rfl]
    rw [taskCompletedEvents_append, taskCompletedEvents_append,
      taskCompletedEvents_append, hl1, hf1]
    simp [taskCompletedEvents, logActivity]
  · simp only [runSession]
    simp only [docSaves_append, hl2, List.nil_append, List.length_append]
    rw [hf2]
    simp [docSaves, logActivity]
  · intro hd
    have hd3 := hf3 hd
    simp only [runSession]
    rw [docSaves_append, docSaves_append, hl2, hd3]
    simp [docSaves, logActivity]
  · simp only [runSession]
    rw [taskStatusUpdates_append, taskStatusUpdates_append, hl3, hf4]
    simp [taskStatusUpdates, logActivity]
  · simp only [runSession]
    rw [agentStatusUpdates_append, agentStatusUpdates_append, hl4, hf5]
    simp [agentStatusUpdates, logActivity]
  · simp only [runSession]
    simp only [savedActivities_append, docSaves_append, hl5, hl2,
      List.nil_append, List.length_append]
    rw [hf6]
    simp only [savedActivities, docSaves, logActivity, List.filterMap_cons,
      List.filterMap_nil, List.length_cons, List.length_nil]
    omega
  · simp only [runSession]
    rw [hf7]
  · simp only [runSession]
    rw [hf7]
    exact lookup_filter_self tid _

/-- Componentwise form of `executeTask_admitted`, convenient for rewriting. -/
theorem executeTask_admitted_parts {store : Store} {s : ExecState} {tid aid : String}
    {task : MCTask} {agent : MCAgent}
    (h : AdmitOK store s tid aid task agent) (items : List StreamItem)
    (stopAt : Option Nat) :
    (executeTask store s tid aid items stopAt).result
      = (runSession store s tid aid task agent items stopAt).result
    ∧ (executeTask store s tid aid items stopAt).trace
      = Effect.getTask tid :: Effect.getAgent aid ::
          (runSession store s tid aid task agent items stopAt).trace
    ∧ (executeTask store s tid aid items stopAt).state
      = (runSession store s tid aid task agent items stopAt).state := by
  have heq := executeTask_admitted h items stopAt
  exact ⟨by rw [heq], by rw [heq], by rw [heq]⟩

/-- The two entity reads that precede a session contribute nothing to any
extractor. -/
theorem extractors_reads (tid aid : String) (tr : List Effect) :
    taskCompletedEvents (Effect.getTask tid :: Effect.getAgent aid :: tr)
      = taskCompletedEvents tr
    ∧ outputEvents (Effect.getTask tid :: Effect.getAgent aid :: tr) = outputEvents tr
    ∧ docSaves (Effect.getTask tid :: Effect.getAgent aid :: tr) = docSaves tr
    ∧ taskStatusUpdates (Effect.getTask tid :: Effect.getAgent aid :: tr)
      = taskStatusUpdates tr
    ∧ agentStatusUpdates (Effect.getTask tid :: Effect.getAgent aid :: tr)
      = agentStatusUpdates tr
    ∧ savedActivities (Effect.getTask tid :: Effect.getAgent aid :: tr)
      = savedActivities tr
    ∧ logEntries (Effect.getTask tid :: Effect.getAgent aid :: tr) = logEntries tr :=
  ⟨rfl, rfl, rfl, rfl, rfl, rfl, rfl⟩

/-- Characterisation of the `finally` block when the outcome is completed
with non-blank output and the external document save raises: statuses and
the completion event were already persisted, nothing after the failed call
runs, so no document, no document activity and no log line appear. -/
theorem finalizeSession_fail_spec (store : Store) (s : ExecState) (tid aid an tt : String)
    (er : Option String) (out : List String)
    (hfail : store.saveDocumentFails = true)
    (hne : pyStrip (String.join out) ≠ "") :
    (finalizeSession store s tid aid an tt "completed" er out).2.2 = true
    ∧ taskCompletedEvents (finalizeSession store s tid aid an tt "completed" er out).1
        = [(tid, aid, "completed", er)]
    ∧ taskStatusUpdates (finalizeSession store s tid aid an tt "completed" er out).1
        = [(tid, TaskStatus.DONE, aid)]
    ∧ agentStatusUpdates (finalizeSession store s tid aid an tt "completed" er out).1
        = [(aid, AgentStatus.IDLE, none)]
    ∧ docSaves (finalizeSession store s tid aid an tt "completed" er out).1 = []
    ∧ logEntries (finalizeSession store s tid aid an tt "completed" er out).1 = [] := by
  cases out with
  | nil => exact absurd (by decide) hne
  | cons a as =>
    have hfull : String.join (a :: as) ≠ "" := by
      intro hh
      exact hne (by rw [hh]; rfl)
    simp [finalizeSession, saveTaskDeliverable, logActivity, taskCompletedEvents,
      taskStatusUpdates, agentStatusUpdates, docSaves, logEntries, hfail, hne, hfull]

/-- An admitted session whose loop completes with non-blank output while
the external document save raises: the exception escapes `execute_task`
(the return dict is never produced), nothing is logged beyond the start
line, and the already persisted DONE/IDLE statuses stand. -/
theorem runSession_savefail (store : Store) (s : ExecState) (tid aid : String)
    (task : MCTask) (agent : MCAgent) (items : List StreamItem) (stopAt : Option Nat)
    (hfail : store.saveDocumentFails = true)
    (hc : (runLoop tid stopAt items 0).final_status = "completed")
    (hne : pyStrip (String.join (runLoop tid stopAt items 0).output_chunks) ≠ "") :
    (runSession store s tid aid task agent items stopAt).result
      = Except.error "save_document raised"
    ∧ logEntries (runSession store s tid aid task agent items stopAt).trace
      = [LogEntry.executionStarting tid aid]
    ∧ taskStatusUpdates (runSession store s tid aid task agent items stopAt).trace
      = [(tid, TaskStatus.IN_PROGRESS, aid), (tid, TaskStatus.DONE, aid)]
    ∧ agentStatusUpdates (runSession store s tid aid task agent items stopAt).trace
      = [(aid, AgentStatus.ACTIVE, some tid), (aid, AgentStatus.IDLE, none)]
    ∧ docSaves (runSession store s tid aid task agent items stopAt).trace = [] := by
  obtain ⟨hl1, hl2, hl3, hl4, hl5⟩ := runLoop_effects_streamed tid stopAt items 0
  have hnl := runLoop_completed_no_logs tid stopAt items 0 hc
  obtain ⟨hg0, hg1, hg2, hg3, hg4, hg5⟩ :=
    finalizeSession_fail_spec store
      ⟨s.running, if s.routers.contains tid then s.routers else tid :: s.routers,
        (tid, false) :: s.stopFlags.filter (fun p => !(p.1 == tid))⟩
      tid aid agent.name task.title
      (runLoop tid stopAt items 0).error_message
      (runLoop tid stopAt items 0).output_chunks hfail hne
  refine ⟨?_, ?_, ?_, ?_, ?_⟩
  · simp only [runSession]
    rw [hc, hg0]
    simp
  · simp only [runSession]
    rw [hc]
    simp only [logEntries_append, hnl, hg5, List.nil_append, List.append_nil]
    simp [logEntries, logActivity]
  · simp only [runSession]
    rw [hc]
    simp only [taskStatusUpdates_append, hl3, hg2, List.nil_append]
    simp [taskStatusUpdates, logActivity]
  · simp only [runSession]
    rw [hc]
    simp only [agentStatusUpdates_append, hl4, hg3, List.nil_append]
    simp [agentStatusUpdates, logActivity]
  · simp only [runSession]
    rw [hc]
    simp only [docSaves_append, hl2, hg4, List.nil_append, List.append_nil]
    simp [docSaves, logActivity]

/-- C1: the claim says every persisted or broadcast copy of an error-typed
chunk's text is sanitized ("[path]", "key=[redacted]", never "sk-123").
The code only sanitizes exceptions caught while pulling chunks; an
error-typed chunk's content is stored, broadcast in `mc_task_completed`,
and persisted in the error activity verbatim — here it still equals the
raw text (which contains "sk-123" and the literal path), while
`_sanitize_error` would have produced the redacted form.  Status "error"
and zero deliverables do hold. -/
theorem c1_error_chunk_crosses_unsanitized :
    (executeTask storeA st0 tidA aidA
        [StreamItem.chunk { type := "message", content := "x" },
          StreamItem.chunk { type := "error", content := rawBoom }] none).result
      = Except.ok ⟨"error", some "x", some rawBoom⟩
    ∧ Effect.publish (SysEvent.task_completed tidA aidA "error" (some rawBoom))
        ∈ (executeTask storeA st0 tidA aidA
            [StreamItem.chunk { type := "message", content := "x" },
              StreamItem.chunk { type := "error", content := rawBoom }] none).trace
    ∧ Effect.saveActivity
          ⟨ActivityType.TASK_UPDATED, some aidA, some tidA,
            "A encountered an error on 'T': " ++ rawBoom⟩
        ∈ (executeTask storeA st0 tidA aidA
            [StreamItem.chunk { type := "message", content := "x" },
              StreamItem.chunk { type := "error", content := rawBoom }] none).trace
    ∧ docSaves (executeTask storeA st0 tidA aidA
          [StreamItem.chunk { type := "message", content := "x" },
            StreamItem.chunk { type := "error", content := rawBoom }] none).trace = []
    ∧ sanitizeError rawBoom = "boom at [path] key=[redacted]"
    ∧ rawBoom ≠ sanitizeError rawBoom := by decide

/-- C2: an admitted execution over chunks `[message "a", message "b",
done]` returns status "completed" with output "ab" and error null, emits
exactly one `task_completed` event carrying error null, and persists
exactly one deliverable document with content "ab". -/
theorem c2_two_messages_then_done (store : Store) (s : ExecState) (tid aid : String)
    (task : MCTask) (agent : MCAgent)
    (h : AdmitOK store s tid aid task agent)
    (hsave : store.saveDocumentFails = false) :
    (executeTask store s tid aid
        [StreamItem.chunk ⟨"message", "a", none⟩, StreamItem.chunk ⟨"message", "b", none⟩,
          StreamItem.chunk ⟨"done", "", none⟩] none).result
      = Except.ok ⟨"completed", some "ab", none⟩
    ∧ taskCompletedEvents (executeTask store s tid aid
          [StreamItem.chunk ⟨"message", "a", none⟩, StreamItem.chunk ⟨"message", "b", none⟩,
            StreamItem.chunk ⟨"done", "", none⟩] none).trace
      = [(tid, aid, "completed", none)]
    ∧ docSaves (executeTask store s tid aid
          [StreamItem.chunk ⟨"message", "a", none⟩, StreamItem.chunk ⟨"message", "b", none⟩,
            StreamItem.chunk ⟨"done", "", none⟩] none).trace
      = [⟨"Deliverable: " ++ task.title, "ab", DocumentType.DELIVERABLE, aid, tid,
          ["auto-generated", "task-output"]⟩] := by
  have hrl : runLoop tid none
      [StreamItem.chunk ⟨"message", "a", none⟩, StreamItem.chunk ⟨"message", "b", none⟩,
        StreamItem.chunk ⟨"done", "", none⟩] 0
      = ⟨["a", "b"],
          [Effect.publish (SysEvent.task_output tid "a" "message"),
            Effect.publish (SysEvent.task_output tid "b" "message")],
          "completed", none⟩ := rfl
  have hj : String.join ["a", "b"] = "ab" := rfl
  obtain ⟨m1, m2, m3, m4, m5, m6, m7, m8, m9⟩ :=
    runSession_spec store s tid aid task agent
      [StreamItem.chunk ⟨"message", "a", none⟩, StreamItem.chunk ⟨"message", "b", none⟩,
        StreamItem.chunk ⟨"done", "", none⟩] none hsave
  obtain ⟨p1, p2, p3⟩ := executeTask_admitted_parts h
    [StreamItem.chunk ⟨"message", "a", none⟩, StreamItem.chunk ⟨"message", "b", none⟩,
      StreamItem.chunk ⟨"done", "", none⟩] none
  have hd : (runLoop tid none
        [StreamItem.chunk ⟨"message", "a", none⟩, StreamItem.chunk ⟨"message", "b", none⟩,
          StreamItem.chunk ⟨"done", "", none⟩] 0).final_status = "completed"
      ∧ pyStrip (String.join (runLoop tid none
          [StreamItem.chunk ⟨"message", "a", none⟩, StreamItem.chunk ⟨"message", "b", none⟩,
            StreamItem.chunk ⟨"done", "", none⟩] 0).output_chunks) ≠ "" := by
    rw [hrl]
    refine ⟨rfl, ?_⟩
    show pyStrip (String.join ["a", "b"]) ≠ ""
    decide
  refine ⟨?_, ?_, ?_⟩
  · rw [p1, m1, hrl]
    simp [hj]
  · rw [p2, (extractors_reads tid aid _).1, m2, hrl]
  · rw [p2, (extractors_reads tid aid _).2.2.1, m4 hd, hrl]
    simp [hj]

/-- C2 witness: the theorem instantiated at the concrete fixtures. -/
theorem c2_two_messages_then_done_witness :
    (executeTask storeA st0 tidA aidA
        [StreamItem.chunk ⟨"message", "a", none⟩, StreamItem.chunk ⟨"message", "b", none⟩,
          StreamItem.chunk ⟨"done", "", none⟩] none).result
      = Except.ok ⟨"completed", some "ab", none⟩
    ∧ taskCompletedEvents (executeTask storeA st0 tidA aidA
          [StreamItem.chunk ⟨"message", "a", none⟩, StreamItem.chunk ⟨"message", "b", none⟩,
            StreamItem.chunk ⟨"done", "", none⟩] none).trace
      = [(tidA, aidA, "completed", none)]
    ∧ docSaves (executeTask storeA st0 tidA aidA
          [StreamItem.chunk ⟨"message", "a", none⟩, StreamItem.chunk ⟨"message", "b", none⟩,
            StreamItem.chunk ⟨"done", "", none⟩] none).trace
      = [⟨"Deliverable: " ++ taskA.title, "ab", DocumentType.DELIVERABLE, aidA, tidA,
          ["auto-generated", "task-output"]⟩] :=
  c2_two_messages_then_done storeA st0 tidA aidA taskA agentA
    ⟨by decide, by decide, by decide, by decide, by decide, by decide⟩ rfl

/-- C3: for every admitted execution (with a working document store), a
deliverable document is persisted exactly when the returned status is
"completed" and the returned output is non-blank after stripping; in all
other cases, including whitespace-only completions, zero deliverables are
persisted. -/
theorem c3_deliverable_iff_completed_nonblank (store : Store) (s : ExecState)
    (tid aid : String) (task : MCTask) (agent : MCAgent)
    (items : List StreamItem) (stopAt : Option Nat)
    (h : AdmitOK store s tid aid task agent)
    (hsave : store.saveDocumentFails = false) :
    ∃ r : ExecResult,
      (executeTask store s tid aid items stopAt).result = Except.ok r
      ∧ (docSaves (executeTask store s tid aid items stopAt).trace).length
          = (if r.status = "completed" ∧ pyStrip (r.output.getD "") ≠ "" then 1 else 0) := by
  obtain ⟨m1, m2, m3, m4, m5, m6, m7, m8, m9⟩ :=
    runSession_spec store s tid aid task agent items stopAt hsave
  obtain ⟨p1, p2, p3⟩ := executeTask_admitted_parts h items stopAt
  refine ⟨⟨(runLoop tid stopAt items 0).final_status,
      some (String.join (runLoop tid stopAt items 0).output_chunks),
      (runLoop tid stopAt items 0).error_message⟩, ?_, ?_⟩
  · rw [p1, m1]
  · rw [p2, (extractors_reads tid aid _).2.2.1, m3]
    rfl

/-- C3 witness: a whitespace-only completion at the concrete fixtures
(zero deliverables). -/
theorem c3_deliverable_iff_completed_nonblank_witness :
    ∃ r : ExecResult,
      (executeTask storeA st0 tidA aidA
          [StreamItem.chunk ⟨"message", "   ", none⟩, StreamItem.chunk ⟨"done", "", none⟩]
          none).result = Except.ok r
      ∧ (docSaves (executeTask storeA st0 tidA aidA
            [StreamItem.chunk ⟨"message", "   ", none⟩, StreamItem.chunk ⟨"done", "", none⟩]
            none).trace).length
          = (if r.status = "completed" ∧ pyStrip (r.output.getD "") ≠ "" then 1 else 0) :=
  c3_deliverable_iff_completed_nonblank storeA st0 tidA aidA taskA agentA
    [StreamItem.chunk ⟨"message", "   ", none⟩, StreamItem.chunk ⟨"done", "", none⟩] none
    ⟨by decide, by decide, by decide, by decide, by decide, by decide⟩ rfl

/-- C4: for every admitted session, whatever mix of chunks, faults and
stop-flag observations ends it, finalization runs exactly once: exactly
one `task_completed` event, exactly one outcome activity (activity count
is start + outcome + optional document), exactly one final task status
transition (to DONE or BLOCKED) after IN_PROGRESS, one agent transition
to IDLE, and the task is deregistered from the running and stop-flag
tables. -/
theorem c4_finalization_exactly_once (store : Store) (s : ExecState)
    (tid aid : String) (task : MCTask) (agent : MCAgent)
    (items : List StreamItem) (stopAt : Option Nat)
    (h : AdmitOK store s tid aid task agent)
    (hsave : store.saveDocumentFails = false) :
    (taskCompletedEvents (executeTask store s tid aid items stopAt).trace).length = 1
    ∧ (savedActivities (executeTask store s tid aid items stopAt).trace).length
        = 2 + (docSaves (executeTask store s tid aid items stopAt).trace).length
    ∧ (∃ stf : TaskStatus,
        taskStatusUpdates (executeTask store s tid aid items stopAt).trace
          = [(tid, TaskStatus.IN_PROGRESS, aid), (tid, stf, aid)]
        ∧ (stf = TaskStatus.DONE ∨ stf = TaskStatus.BLOCKED))
    ∧ agentStatusUpdates (executeTask store s tid aid items stopAt).trace
        = [(aid, AgentStatus.ACTIVE, some tid), (aid, AgentStatus.IDLE, none)]
    ∧ (executeTask store s tid aid items stopAt).state.running = s.running.erase tid
    ∧ List.lookup tid (executeTask store s tid aid items stopAt).state.stopFlags = none := by
  obtain ⟨m1, m2, m3, m4, m5, m6, m7, m8, m9⟩ :=
    runSession_spec store s tid aid task agent items stopAt hsave
  obtain ⟨p1, p2, p3⟩ := executeTask_admitted_parts h items stopAt
  refine ⟨?_, ?_, ?_, ?_, ?_, ?_⟩
  · rw [p2, (extractors_reads tid aid _).1, m2]
    rfl
  · rw [p2, (extractors_reads tid aid _).2.2.2.2.2.1,
      (extractors_reads tid aid _).2.2.1]
    exact m7
  · refine ⟨if (runLoop tid stopAt items 0).final_status = "completed"
        then TaskStatus.DONE else TaskStatus.BLOCKED, ?_, ?_⟩
    · rw [p2, (extractors_reads tid aid _).2.2.2.1, m5]
    · by_cases hcs : (runLoop tid stopAt items 0).final_status = "completed"
      · left; rw [if_pos hcs]
      · right; rw [if_neg hcs]
  · rw [p2, (extractors_reads tid aid _).2.2.2.2.1, m6]
  · rw [p3]; exact m8
  · rw [p3]; exact m9

/-- C4 witness: a fault-terminated session at the concrete fixtures. -/
theorem c4_finalization_exactly_once_witness :
    (taskCompletedEvents (executeTask storeA st0 tidA aidA
        [StreamItem.fault "backend gone"] none).trace).length = 1
    ∧ (savedActivities (executeTask storeA st0 tidA aidA
          [StreamItem.fault "backend gone"] none).trace).length
        = 2 + (docSaves (executeTask storeA st0 tidA aidA
            [StreamItem.fault "backend gone"] none).trace).length
    ∧ (∃ stf : TaskStatus,
        taskStatusUpdates (executeTask storeA st0 tidA aidA
            [StreamItem.fault "backend gone"] none).trace
          = [(tidA, TaskStatus.IN_PROGRESS, aidA), (tidA, stf, aidA)]
        ∧ (stf = TaskStatus.DONE ∨ stf = TaskStatus.BLOCKED))
    ∧ agentStatusUpdates (executeTask storeA st0 tidA aidA
          [StreamItem.fault "backend gone"] none).trace
        = [(aidA, AgentStatus.ACTIVE, some tidA), (aidA, AgentStatus.IDLE, none)]
    ∧ (executeTask storeA st0 tidA aidA
        [StreamItem.fault "backend gone"] none).state.running = st0.running.erase tidA
    ∧ List.lookup tidA (executeTask storeA st0 tidA aidA
        [StreamItem.fault "backend gone"] none).state.stopFlags = none :=
  c4_finalization_exactly_once storeA st0 tidA aidA taskA agentA
    [StreamItem.fault "backend gone"] none
    ⟨by decide, by decide, by decide, by decide, by decide, by decide⟩ rfl

/-- C5: for every admitted session (with a working document store), the
final persisted task status is DONE when the returned status is
"completed" and BLOCKED when it is "error" or "stopped", and the agent is
persisted as IDLE with no active task. -/
theorem c5_terminal_status_mapping (store : Store) (s : ExecState)
    (tid aid : String) (task : MCTask) (agent : MCAgent)
    (items : List StreamItem) (stopAt : Option Nat)
    (h : AdmitOK store s tid aid task agent)
    (hsave : store.saveDocumentFails = false) :
    ∃ r : ExecResult,
      (executeTask store s tid aid items stopAt).result = Except.ok r
      ∧ (r.status = "completed" →
          taskStatusUpdates (executeTask store s tid aid items stopAt).trace
            = [(tid, TaskStatus.IN_PROGRESS, aid), (tid, TaskStatus.DONE, aid)])
      ∧ ((r.status = "error" ∨ r.status = "stopped") →
          taskStatusUpdates (executeTask store s tid aid items stopAt).trace
            = [(tid, TaskStatus.IN_PROGRESS, aid), (tid, TaskStatus.BLOCKED, aid)])
      ∧ agentStatusUpdates (executeTask store s tid aid items stopAt).trace
          = [(aid, AgentStatus.ACTIVE, some tid), (aid, AgentStatus.IDLE, none)] := by
  obtain ⟨m1, m2, m3, m4, m5, m6, m7, m8, m9⟩ :=
    runSession_spec store s tid aid task agent items stopAt hsave
  obtain ⟨p1, p2, p3⟩ := executeTask_admitted_parts h items stopAt
  refine ⟨⟨(runLoop tid stopAt items 0).final_status,
      some (String.join (runLoop tid stopAt items 0).output_chunks),
      (runLoop tid stopAt items 0).error_message⟩, ?_, ?_, ?_, ?_⟩
  · rw [p1, m1]
  · intro hs
    dsimp only at hs
    rw [p2, (extractors_reads tid aid _).2.2.2.1, m5, if_pos hs]
  · intro hs
    dsimp only at hs
    have hne : ¬ (runLoop tid stopAt items 0).final_status = "completed" := by
      rcases hs with hs | hs <;> rw [hs] <;> decide
    rw [p2, (extractors_reads tid aid _).2.2.2.1, m5, if_neg hne]
  · rw [p2, (extractors_reads tid aid _).2.2.2.2.1, m6]

/-- C5 witness: a stop-terminated session at the concrete fixtures (the
stop flag reads true from the first chunk boundary). -/
theorem c5_terminal_status_mapping_witness :
    ∃ r : ExecResult,
      (executeTask storeA st0 tidA aidA
          [StreamItem.chunk ⟨"message", "m", none⟩, StreamItem.chunk ⟨"done", "", none⟩]
          (some 0)).result = Except.ok r
      ∧ (r.status = "completed" →
          taskStatusUpdates (executeTask storeA st0 tidA aidA
              [StreamItem.chunk ⟨"message", "m", none⟩, StreamItem.chunk ⟨"done", "", none⟩]
              (some 0)).trace
            = [(tidA, TaskStatus.IN_PROGRESS, aidA), (tidA, TaskStatus.DONE, aidA)])
      ∧ ((r.status = "error" ∨ r.status = "stopped") →
          taskStatusUpdates (executeTask storeA st0 tidA aidA
              [StreamItem.chunk ⟨"message", "m", none⟩, StreamItem.chunk ⟨"done", "", none⟩]
              (some 0)).trace
            = [(tidA, TaskStatus.IN_PROGRESS, aidA), (tidA, TaskStatus.BLOCKED, aidA)])
      ∧ agentStatusUpdates (executeTask storeA st0 tidA aidA
            [StreamItem.chunk ⟨"message", "m", none⟩, StreamItem.chunk ⟨"done", "", none⟩]
            (some 0)).trace
          = [(aidA, AgentStatus.ACTIVE, some tidA), (aidA, AgentStatus.IDLE, none)] :=
  c5_terminal_status_mapping storeA st0 tidA aidA taskA agentA
    [StreamItem.chunk ⟨"message", "m", none⟩, StreamItem.chunk ⟨"done", "", none⟩] (some 0)
    ⟨by decide, by decide, by decide, by decide, by decide, by decide⟩ rfl

/-- C6: the claim says a stop on a running session yields final status
"stopped" and that a true return means the session was finalized and
deregistered.  In the code, `execute_task` never writes its own task into
`_running_tasks` (only `execute_task_background` does, and that entry
leaks), so `stop_task` during a foreground run finds nothing: it returns
false, never sets the stop flag, and the session runs to "completed".
Conversely, on a leaked background registry entry `stop_task` returns
true while no session ran, and the task is still in the running registry
afterwards because `stop_task` does not deregister and the leaked entry's
finalization never runs. -/
theorem c6_stop_cannot_reach_a_running_session :
    stopTask st0 tidA = (false, [], st0)
    ∧ isTaskRunning st0 tidA = false
    ∧ (executeTask storeA st0 tidA aidA
        [StreamItem.chunk ⟨"message", "a", none⟩, StreamItem.chunk ⟨"message", "b", none⟩,
          StreamItem.chunk ⟨"done", "", none⟩] none).result
      = Except.ok ⟨"completed", some "ab", none⟩
    ∧ (executeTask storeA st0 tidA aidA
        [StreamItem.chunk ⟨"message", "a", none⟩, StreamItem.chunk ⟨"message", "b", none⟩,
          StreamItem.chunk ⟨"done", "", none⟩] none).state.running = []
    ∧ (executeTaskBackground storeA st0 tidA aidA
        [StreamItem.chunk ⟨"message", "m", none⟩] none).state.running = [tidA]
    ∧ (stopTask (executeTaskBackground storeA st0 tidA aidA
        [StreamItem.chunk ⟨"message", "m", none⟩] none).state tidA).1 = true
    ∧ (stopTask (executeTaskBackground storeA st0 tidA aidA
        [StreamItem.chunk ⟨"message", "m", none⟩] none).state tidA).2.2.running
      = [tidA] := by decide

/-- C7: every admission failure of `execute_task` (capacity, task or agent
not found, duplicate) returns an error dict immediately: the executor
state is unchanged and the trace holds only entity reads and log lines —
no status mutation, no event, no registry change; when the capacity bound
is hit the returned error is the CapacityExceeded message. -/
theorem c7_admission_failures_mutate_nothing (store : Store) (s : ExecState)
    (tid aid : String) (items : List StreamItem) (stopAt : Option Nat)
    (hv1 : isValidUUID tid = true) (hv2 : isValidUUID aid = true)
    (hb : AdmissionBlocked store s tid aid) :
    (executeTask store s tid aid items stopAt).state = s
    ∧ (∀ e ∈ (executeTask store s tid aid items stopAt).trace, isReadOrLog e = true)
    ∧ (∃ msg, (executeTask store s tid aid items stopAt).result
        = Except.ok ⟨"error", none, some msg⟩)
    ∧ (MAX_CONCURRENT_TASKS ≤ s.running.length →
        (executeTask store s tid aid items stopAt).result
          = Except.ok ⟨"error", none,
              some ("Maximum concurrent tasks (" ++ toString MAX_CONCURRENT_TASKS
                ++ ") reached. Please wait.")⟩) := by
  by_cases hcap : MAX_CONCURRENT_TASKS ≤ s.running.length
  · simp [executeTask, hv1, hv2, hcap, isReadOrLog]
  · rcases hb with hcap' | hnt | hna | hdup
    · exact absurd hcap' hcap
    · simp [executeTask, hv1, hv2, hcap, hnt, isReadOrLog]
    · cases htask : store.tasks.lookup tid with
      | none => simp [executeTask, hv1, hv2, hcap, htask, isReadOrLog]
      | some task => simp [executeTask, hv1, hv2, hcap, htask, hna, isReadOrLog]
    · cases htask : store.tasks.lookup tid with
      | none => simp [executeTask, hv1, hv2, hcap, htask, isReadOrLog]
      | some task =>
        cases hagent : store.agents.lookup aid with
        | none => simp [executeTask, hv1, hv2, hcap, htask, hagent, isReadOrLog]
        | some agent =>
          have hdup' : tid ∈ s.running := by simpa using hdup
          simp [executeTask, hv1, hv2, hcap, htask, hagent, hdup', isReadOrLog]

/-- C7 witness: a sixth call with five active registry entries gets the
CapacityExceeded message and mutates nothing. -/
theorem c7_admission_failures_mutate_nothing_witness :
    (executeTask storeA ⟨["a1", "a2", "a3", "a4", "a5"], [], []⟩ tidA aidA [] none).state
      = ⟨["a1", "a2", "a3", "a4", "a5"], [], []⟩
    ∧ (∀ e ∈ (executeTask storeA ⟨["a1", "a2", "a3", "a4", "a5"], [], []⟩ tidA aidA
          [] none).trace, isReadOrLog e = true)
    ∧ (∃ msg, (executeTask storeA ⟨["a1", "a2", "a3", "a4", "a5"], [], []⟩ tidA aidA
          [] none).result = Except.ok ⟨"error", none, some msg⟩)
    ∧ (MAX_CONCURRENT_TASKS ≤ (⟨["a1", "a2", "a3", "a4", "a5"], [], []⟩ : ExecState).running.length →
        (executeTask storeA ⟨["a1", "a2", "a3", "a4", "a5"], [], []⟩ tidA aidA [] none).result
          = Except.ok ⟨"error", none,
              some ("Maximum concurrent tasks (" ++ toString MAX_CONCURRENT_TASKS
                ++ ") reached. Please wait.")⟩) :=
  c7_admission_failures_mutate_nothing storeA ⟨["a1", "a2", "a3", "a4", "a5"], [], []⟩
    tidA aidA [] none (by decide) (by decide) (Or.inl (by decide))

/-- C8: the claim says a second `execute` for the same task returns
DuplicateExecution while exactly one session runs, with duplicate-check
and registration atomic.  In the code, registration happens only in
`execute_task_background` and strictly before the coroutine's first step,
so the background execution's own duplicate check sees its own entry:
the first and only execution returns "Task is already running", no
session body ever runs (the trace stops at the entity reads), and the
registry entry leaks.  Meanwhile a foreground `execute_task` never
registers, so a concurrent second foreground call passes the duplicate
check and runs to completion instead of being rejected. -/
theorem c8_duplicate_check_self_trips_and_misses :
    (executeTaskBackground storeA st0 tidA aidA
        [StreamItem.chunk ⟨"done", "", none⟩] none).result
      = Except.ok ⟨"error", none, some "Task is already running"⟩
    ∧ (executeTaskBackground storeA st0 tidA aidA
        [StreamItem.chunk ⟨"done", "", none⟩] none).trace
      = [Effect.getTask tidA, Effect.getAgent aidA]
    ∧ (executeTaskBackground storeA st0 tidA aidA
        [StreamItem.chunk ⟨"done", "", none⟩] none).state = ⟨[tidA], [], []⟩
    ∧ (executeTask storeA st0 tidA aidA
        [StreamItem.chunk ⟨"done", "", none⟩] none).result
      = Except.ok ⟨"completed", some "", none⟩ := by decide

/-- C9 counterexample: the claim says a deliverable-save failure "is
logged".  At this concrete completed execution with a failing document
store, the save call is not wrapped in any handler: the exception escapes
`execute_task` (no result dict is returned), and the only log line in the
whole trace is the start line — nothing logs the failure. -/
theorem c9_save_failure_is_not_logged :
    (executeTask storeFail st0 tidA aidA
        [StreamItem.chunk ⟨"message", "hello", none⟩, StreamItem.chunk ⟨"done", "", none⟩]
        none).result
      = Except.error "save_document raised"
    ∧ logEntries (executeTask storeFail st0 tidA aidA
        [StreamItem.chunk ⟨"message", "hello", none⟩, StreamItem.chunk ⟨"done", "", none⟩]
        none).trace
      = [LogEntry.executionStarting tidA aidA]
    ∧ docSaves (executeTask storeFail st0 tidA aidA
        [StreamItem.chunk ⟨"message", "hello", none⟩, StreamItem.chunk ⟨"done", "", none⟩]
        none).trace = [] := by decide

/-- C9 as amended: for every admitted completed execution with non-blank
output whose deliverable save fails, the failure is not caught or logged —
the exception propagates out of `execute_task` — but the already persisted
DONE task status and IDLE agent status are not rolled back or otherwise
changed: the trace still ends its status updates at DONE/IDLE, and no
document or document activity exists. -/
theorem c9_save_failure_propagates_statuses_stand (store : Store) (s : ExecState)
    (tid aid : String) (task : MCTask) (agent : MCAgent)
    (items : List StreamItem) (stopAt : Option Nat)
    (h : AdmitOK store s tid aid task agent)
    (hfail : store.saveDocumentFails = true)
    (hc : (runLoop tid stopAt items 0).final_status = "completed")
    (hne : pyStrip (String.join (runLoop tid stopAt items 0).output_chunks) ≠ "") :
    (executeTask store s tid aid items stopAt).result
      = Except.error "save_document raised"
    ∧ logEntries (executeTask store s tid aid items stopAt).trace
      = [LogEntry.executionStarting tid aid]
    ∧ taskStatusUpdates (executeTask store s tid aid items stopAt).trace
      = [(tid, TaskStatus.IN_PROGRESS, aid), (tid, TaskStatus.DONE, aid)]
    ∧ agentStatusUpdates (executeTask store s tid aid items stopAt).trace
      = [(aid, AgentStatus.ACTIVE, some tid), (aid, AgentStatus.IDLE, none)]
    ∧ docSaves (executeTask store s tid aid items stopAt).trace = [] := by
  obtain ⟨g1, g2, g3, g4, g5⟩ :=
    runSession_savefail store s tid aid task agent items stopAt hfail hc hne
  obtain ⟨p1, p2, p3⟩ := executeTask_admitted_parts h items stopAt
  refine ⟨?_, ?_, ?_, ?_, ?_⟩
  · rw [p1, g1]
  · rw [p2, (extractors_reads tid aid _).2.2.2.2.2.2, g2]
  · rw [p2, (extractors_reads tid aid _).2.2.2.1, g3]
  · rw [p2, (extractors_reads tid aid _).2.2.2.2.1, g4]
  · rw [p2, (extractors_reads tid aid _).2.2.1, g5]

/-- C9 witness: the amended theorem instantiated at a concrete completed
execution with a failing document store. -/
theorem c9_save_failure_propagates_statuses_stand_witness :
    (executeTask storeFail st0 tidA aidA
        [StreamItem.chunk ⟨"message", "w", none⟩, StreamItem.chunk ⟨"done", "", none⟩]
        none).result
      = Except.error "save_document raised"
    ∧ logEntries (executeTask storeFail st0 tidA aidA
        [StreamItem.chunk ⟨"message", "w", none⟩, StreamItem.chunk ⟨"done", "", none⟩]
        none).trace
      = [LogEntry.executionStarting tidA aidA]
    ∧ taskStatusUpdates (executeTask storeFail st0 tidA aidA
        [StreamItem.chunk ⟨"message", "w", none⟩, StreamItem.chunk ⟨"done", "", none⟩]
        none).trace
      = [(tidA, TaskStatus.IN_PROGRESS, aidA), (tidA, TaskStatus.DONE, aidA)]
    ∧ agentStatusUpdates (executeTask storeFail st0 tidA aidA
        [StreamItem.chunk ⟨"message", "w", none⟩, StreamItem.chunk ⟨"done", "", none⟩]
        none).trace
      = [(aidA, AgentStatus.ACTIVE, some tidA), (aidA, AgentStatus.IDLE, none)]
    ∧ docSaves (executeTask storeFail st0 tidA aidA
        [StreamItem.chunk ⟨"message", "w", none⟩, StreamItem.chunk ⟨"done", "", none⟩]
        none).trace = [] :=
  c9_save_failure_propagates_statuses_stand storeFail st0 tidA aidA taskA agentA
    [StreamItem.chunk ⟨"message", "w", none⟩, StreamItem.chunk ⟨"done", "", none⟩] none
    ⟨by decide, by decide, by decide, by decide, by decide, by decide⟩
    rfl (by decide) (by decide)

/-- C10 counterexample: the claim says every id not in canonical UUID form
is rejected with the fixed invalid-format message before any store
lookup.  `UUID_PATTERN` is anchored with Python's `$`, which also matches
just before one trailing newline, so this non-canonical id passes
validation: the call performs a store lookup (the trace holds a task
read) and returns "Task not found" rather than the invalid-format
message. -/
theorem c10_trailing_newline_reaches_lookup :
    canonicalUUID newlineId = false
    ∧ isValidUUID newlineId = true
    ∧ (executeTask ⟨[], [], false⟩ st0 newlineId aidA [] none).result
        = Except.ok ⟨"error", none, some "Task not found"⟩
    ∧ (executeTask ⟨[], [], false⟩ st0 newlineId aidA [] none).trace
        = [Effect.getTask newlineId] := by decide

/-- C10 as amended: ids are validated against the anchored UUID pattern,
which accepts the canonical form case-insensitively plus at most one
trailing newline; for every call whose task id (or, with a valid task id,
whose agent id) fails that validator, `execute_task` returns the fixed
invalid-format error dict before any store lookup, status mutation, event
emission or registry change: the state is untouched and the trace is a
single internal log line. -/
theorem c10_invalid_ids_rejected_before_effects (store : Store) (s : ExecState)
    (tid aid : String) (items : List StreamItem) (stopAt : Option Nat) :
    (isValidUUID tid = false →
      executeTask store s tid aid items stopAt
        = ⟨Except.ok ⟨"error", none, some "Invalid task ID format"⟩,
            [Effect.log (LogEntry.invalidTaskId tid)], s⟩)
    ∧ (isValidUUID tid = true → isValidUUID aid = false →
      executeTask store s tid aid items stopAt
        = ⟨Except.ok ⟨"error", none, some "Invalid agent ID format"⟩,
            [Effect.log (LogEntry.invalidAgentId aid)], s⟩) := by
  constructor
  · intro hbad
    simp [executeTask, hbad]
  · intro hok hbad
    simp [executeTask, hok, hbad]

/-- C10 witness: the amended theorem applied to a malformed task id. -/
theorem c10_invalid_ids_rejected_before_effects_witness :
    isValidUUID "not-a-uuid" = false
    ∧ executeTask storeA st0 "not-a-uuid" aidA [] none
      = ⟨Except.ok ⟨"error", none, some "Invalid task ID format"⟩,
          [Effect.log (LogEntry.invalidTaskId "not-a-uuid")], st0⟩ :=
  ⟨by decide,
    (c10_invalid_ids_rejected_before_effects storeA st0 "not-a-uuid" aidA [] none).1
      (by decide)⟩
